import Mathlib

/-!
# FontSniffer — verification of the harvesting engine

Shallow embedding of `src/FontSniffer/Sniffer.py` (class `FontSniffer`):
the retrying fetcher `_fetch_page`, the pagination discoverer
`_detect_total_pages`, the page parser/filter `_parse_and_filter_page`,
the orchestrator generator `search`, and the stats accessor `get_stats`.

HTML parsing by BeautifulSoup and the network are external to the
repository; they are represented by oracle inputs (the parsed shape of a
document, the outcome of each transport attempt), while every piece of
control flow, counter arithmetic, filtering and fallback logic of the
Python source is translated directly.
-/

namespace FontSniffer

/-- The `self.stats` dictionary initialised in `FontSniffer.__init__`
(Sniffer.py lines 49–54): four request counters. -/
structure Stats where
  total_requests : Nat
  successful_requests : Nat
  failed_requests : Nat
  retried_requests : Nat
  deriving Repr, DecidableEq

/-- The initial counters: every entry of `self.stats` starts at 0. -/
def initStats : Stats := ⟨0, 0, 0, 0⟩

/-- The environment one iteration of `_fetch_page` observes:
`stopBefore` is the value of `self.should_stop()` polled at entry
(line 97); `outcome` is the transport result of `session.get` +
`raise_for_status` (`some body` on success, `none` when a
`RequestException` is raised); `stopAfterFail` is the value of the
second `self.should_stop()` poll in the retry guard (line 113). -/
structure Attempt where
  stopBefore : Bool
  outcome : Option String
  stopAfterFail : Bool

/-- Embedding of `FontSniffer._fetch_page` (Sniffer.py lines 86–125).

The environment `env` maps the global attempt index `tick` to what that
iteration observes.  Returns the fetched body (or `none`), the updated
`self.stats`, and the next attempt index.  The backoff sleep and the
log prints have no effect on the modelled state and are omitted. -/
def fetchPageAux (maxRetries : Nat) (env : Nat → Attempt)
    (retryCount tick : Nat) (s : Stats) : Option String × Stats × Nat :=
  let a := env tick
  if a.stopBefore then
    (none, s, tick)
  else
    let s1 := { s with total_requests := s.total_requests + 1 }
    match a.outcome with
    | some body =>
        (some body,
         { s1 with successful_requests := s1.successful_requests + 1 },
         tick + 1)
    | none =>
        let s2 := { s1 with failed_requests := s1.failed_requests + 1 }
        if h : retryCount < maxRetries then
          if a.stopAfterFail then
            (none, s2, tick + 1)
          else
            let s3 := { s2 with retried_requests := s2.retried_requests + 1 }
            fetchPageAux maxRetries env (retryCount + 1) (tick + 1) s3
        else
          (none, s2, tick + 1)
termination_by maxRetries - retryCount
decreasing_by omega

/-- `_fetch_page(page)` as called externally: retry counter starts at 0. -/
def fetch_page (maxRetries : Nat) (env : Nat → Attempt) (tick : Nat)
    (s : Stats) : Option String × Stats × Nat :=
  fetchPageAux maxRetries env 0 tick s

/-- An environment in which the transport fails on every attempt and
cancellation is never set. -/
def alwaysFailEnv : Nat → Attempt := fun _ => ⟨false, none, false⟩

theorem fetchPageAux_alwaysFail (maxRetries : Nat) :
    ∀ d tick s, d ≤ maxRetries →
    fetchPageAux maxRetries alwaysFailEnv (maxRetries - d) tick s =
      (none,
       { total_requests := s.total_requests + d + 1
         successful_requests := s.successful_requests
         failed_requests := s.failed_requests + d + 1
         retried_requests := s.retried_requests + d },
       tick + d + 1) := by
  intro d
  induction d with
  | zero =>
    intro tick s _
    rw [fetchPageAux]
    simp [alwaysFailEnv]
  | succ d ih =>
    intro tick s hle
    rw [fetchPageAux]
    have hlt : maxRetries - (d + 1) < maxRetries := by omega
    have hstep : maxRetries - (d + 1) + 1 = maxRetries - d := by omega
    simp only [alwaysFailEnv, Bool.false_eq_true, if_false, dif_pos hlt, hstep]
    rw [ih (tick + 1) _ (by omega)]
    simp only [Prod.mk.injEq, Stats.mk.injEq, true_and, and_true]
    omega

/-- C2: a page whose transport always fails, with cancellation never set,
makes `maxRetries + 1` attempts in total (`maxRetries` retries after the
first attempt), returns `none` exactly once, and increments
`retried_requests` by `maxRetries`, `failed_requests` by `maxRetries + 1`
and `total_requests` by `maxRetries + 1` (`successful_requests` is
untouched).  The attempt count is the advance of the attempt index. -/
theorem fetch_page_retry_bound (maxRetries tick : Nat) (s : Stats) :
    fetch_page maxRetries alwaysFailEnv tick s =
      (none,
       { total_requests := s.total_requests + maxRetries + 1
         successful_requests := s.successful_requests
         failed_requests := s.failed_requests + maxRetries + 1
         retried_requests := s.retried_requests + maxRetries },
       tick + maxRetries + 1) := by
  have h := fetchPageAux_alwaysFail maxRetries maxRetries tick s le_rfl
  rw [Nat.sub_self] at h
  simpa [fetch_page] using h

/-- C6: if the cancellation signal is set when `_fetch_page` is entered,
it returns `None` immediately and leaves every counter of `self.stats`
unchanged, issuing no attempt. -/
theorem fetch_page_cancelled_noop (maxRetries : Nat) (env : Nat → Attempt)
    (tick : Nat) (s : Stats) (h : (env tick).stopBefore = true) :
    fetch_page maxRetries env tick s = (none, s, tick) := by
  rw [fetch_page, fetchPageAux]
  simp [h]

/-- Witness for C6: with a cancellation predicate that is already set,
a concrete call leaves the initial counters untouched. -/
theorem fetch_page_cancelled_noop_witness :
    ((fun _ : Nat => Attempt.mk true none false) 0).stopBefore = true ∧
    fetch_page 3 (fun _ => Attempt.mk true none false) 0 initStats =
      (none, initStats, 0) :=
  ⟨rfl, fetch_page_cancelled_noop 3 (fun _ => Attempt.mk true none false)
    0 initStats rfl⟩

/-- The counters' invariant asserted by the spec: totals add up and the
retried count never exceeds the failed count. -/
def statsInv (s : Stats) : Prop :=
  s.total_requests = s.successful_requests + s.failed_requests ∧
  s.retried_requests ≤ s.failed_requests

/-- Delta lemma for one `_fetch_page` call: some `b` successes, `c`
failures, `a ≤ c` retries are recorded, with `b + c` total requests. -/
theorem fetchPageAux_delta (mR : Nat) (env : Nat → Attempt) :
    ∀ d rc t s, mR - rc = d →
    ∃ b c a, (fetchPageAux mR env rc t s).2.1 =
      { total_requests := s.total_requests + (b + c)
        successful_requests := s.successful_requests + b
        failed_requests := s.failed_requests + c
        retried_requests := s.retried_requests + a } ∧ a ≤ c := by
  intro d
  induction d with
  | zero =>
    intro rc t s hd
    rw [fetchPageAux]
    by_cases hstop : (env t).stopBefore = true
    · refine ⟨0, 0, 0, ?_, le_refl 0⟩
      cases s
      simp [hstop]
    · rcases houtcome : (env t).outcome with _ | body
      · have hnot : ¬ rc < mR := by omega
        refine ⟨0, 1, 0, ?_, Nat.zero_le 1⟩
        simp [hstop, houtcome, dif_neg hnot]
      · refine ⟨1, 0, 0, ?_, le_refl 0⟩
        simp [hstop, houtcome]
  | succ d ih =>
    intro rc t s hd
    rw [fetchPageAux]
    by_cases hstop : (env t).stopBefore = true
    · refine ⟨0, 0, 0, ?_, le_refl 0⟩
      cases s
      simp [hstop]
    · rcases houtcome : (env t).outcome with _ | body
      · have hlt : rc < mR := by omega
        by_cases hstop2 : (env t).stopAfterFail = true
        · refine ⟨0, 1, 0, ?_, Nat.zero_le 1⟩
          simp [hstop, houtcome, dif_pos hlt, hstop2]
        · obtain ⟨b, c, a, heq, hle⟩ :=
            ih (rc + 1) (t + 1)
              { total_requests := s.total_requests + 1
                successful_requests := s.successful_requests
                failed_requests := s.failed_requests + 1
                retried_requests := s.retried_requests + 1 } (by omega)
          refine ⟨b, c + 1, a + 1, ?_, by omega⟩
          simp only [hstop, houtcome, dif_pos hlt, hstop2,
            Bool.false_eq_true, if_false]
          rw [heq]
          simp only [Stats.mk.injEq, true_and, and_true]
          omega
      · refine ⟨1, 0, 0, ?_, le_refl 0⟩
        simp [hstop, houtcome]

/-- `statsInv` is preserved by every `_fetch_page` call. -/
theorem fetch_page_preserves_statsInv (mR : Nat) (env : Nat → Attempt)
    (t : Nat) (s : Stats) (hs : statsInv s) :
    statsInv (fetch_page mR env t s).2.1 := by
  obtain ⟨b, c, a, heq, hle⟩ :=
    fetchPageAux_delta mR env (mR - 0) 0 t s rfl
  rw [fetch_page, heq]
  obtain ⟨h1, h2⟩ := hs
  exact ⟨by simp only []; omega, by simp only []; omega⟩

/-- A run: a sequence of `_fetch_page` calls on one engine instance, each
with its own environment, starting each call's attempt index at 0. -/
def runFetches (mR : Nat) (calls : List (Nat → Attempt)) (s : Stats) :
    Stats :=
  calls.foldl (fun st env => (fetch_page mR env 0 st).2.1) s

/-- C10: after any sequence of `_fetch_page` calls with any outcomes, the
counters satisfy `total_requests = successful_requests + failed_requests`
and `retried_requests ≤ failed_requests`; moreover each single call adds
`b` to the success counter, `c` to the failure counter and `b + c` to the
total counter for some `b`, `c` (each attempt counted in exactly one of
the two), with at most `c` retries recorded. -/
theorem run_fetches_counters_invariant (mR : Nat)
    (calls : List (Nat → Attempt)) :
    statsInv (runFetches mR calls initStats) ∧
    ∀ env t s, ∃ b c a, (fetch_page mR env t s).2.1 =
      { total_requests := s.total_requests + (b + c)
        successful_requests := s.successful_requests + b
        failed_requests := s.failed_requests + c
        retried_requests := s.retried_requests + a } ∧ a ≤ c := by
  constructor
  · have key : ∀ (l : List (Nat → Attempt)) (s : Stats), statsInv s →
        statsInv (l.foldl (fun st env => (fetch_page mR env 0 st).2.1) s) := by
      intro l
      induction l with
      | nil => intro s hs; exact hs
      | cons env rest ih =>
        intro s hs
        exact ih _ (fetch_page_preserves_statsInv mR env 0 s hs)
    exact key calls initStats ⟨rfl, le_refl 0⟩
  · intro env t s
    exact fetchPageAux_delta mR env (mR - 0) 0 t s rfl

/-- An HTTP response as `requests` delivers it to the caller: status
code and decoded body text. -/
structure HttpResp where
  status : Nat
  body : String
  deriving Repr, DecidableEq

/-- Embedding of one transport attempt (Sniffer.py lines 104–106):
`self.session.get(url, timeout=self.timeout, allow_redirects=False)`
followed by `response.raise_for_status()`.  Input `none` models a
connection error or timeout (the `get` call itself raises a
`RequestException`).  `Response.raise_for_status` of the `requests`
library raises `HTTPError` exactly for status codes in [400, 600); any
other status — 2xx, but also 1xx and 3xx redirects, which are not
followed because `allow_redirects=False` — returns normally, so the
decoded body becomes the successful fetch result. -/
def transport (r : Option HttpResp) : Option String :=
  match r with
  | none => none
  | some resp =>
      if 400 ≤ resp.status ∧ resp.status < 600 then none else some resp.body

/-- An environment in which every attempt observes the same response and
cancellation is never set. -/
def steadyEnv (r : Option HttpResp) : Nat → Attempt :=
  fun _ => ⟨false, transport r, false⟩

/-- Counterexample to C3: a 301 redirect response is NOT treated as a
failure.  `raise_for_status` does not raise for 3xx, so the attempt
returns the redirect body as a successful raw body, incrementing
`successful_requests` and leaving `failed_requests` at 0. -/
theorem redirect_not_failure_counterexample :
    transport (some (HttpResp.mk 301 "moved")) = some "moved" ∧
    (fetch_page 3 (steadyEnv (some (HttpResp.mk 301 "moved"))) 0 initStats).1
      = some "moved" ∧
    (fetch_page 3 (steadyEnv (some (HttpResp.mk 301 "moved"))) 0
        initStats).2.1.failed_requests = 0 ∧
    (fetch_page 3 (steadyEnv (some (HttpResp.mk 301 "moved"))) 0
        initStats).2.1.successful_requests = 1 := by
  have ht : transport (some (HttpResp.mk 301 "moved")) = some "moved" := by
    simp [transport]
  have hf : fetch_page 3 (steadyEnv (some (HttpResp.mk 301 "moved"))) 0
      initStats = (some "moved", ⟨1, 1, 0, 0⟩, 1) := by
    rw [fetch_page, fetchPageAux]
    simp [steadyEnv, ht, initStats]
  exact ⟨ht, by rw [hf], by rw [hf], by rw [hf]⟩

/-- C3 amended: a 3xx redirect response is not followed, but it is also
not a failure: `raise_for_status` only raises for statuses in
[400, 600), so the redirect response body is returned as a successful
raw body with `successful_requests` incremented and `failed_requests`
untouched. -/
theorem redirect_treated_as_success (maxRetries : Nat) (resp : HttpResp)
    (h3 : 300 ≤ resp.status) (h4 : resp.status < 400) (tick : Nat)
    (s : Stats) :
    transport (some resp) = some resp.body ∧
    fetch_page maxRetries (steadyEnv (some resp)) tick s =
      (some resp.body,
       { s with total_requests := s.total_requests + 1
                successful_requests := s.successful_requests + 1 },
       tick + 1) := by
  have ht : transport (some resp) = some resp.body := by
    rw [transport, if_neg (by omega)]
  refine ⟨ht, ?_⟩
  rw [fetch_page, fetchPageAux]
  simp [steadyEnv, ht]

/-- Witness for the amended C3 at a concrete 301 response. -/
theorem redirect_treated_as_success_witness :
    transport (some (HttpResp.mk 301 "body")) = some "body" ∧
    fetch_page 3 (steadyEnv (some (HttpResp.mk 301 "body"))) 0 initStats =
      (some "body", ⟨1, 1, 0, 0⟩, 1) :=
  redirect_treated_as_success 3 (HttpResp.mk 301 "body")
    (by decide) (by decide) 0 initStats

/-- Value of one digit character, as Python `int()` reads it. -/
def digitVal (c : Char) : Nat := c.toNat - 48

/-- `int(...)` on a digit string. -/
def natOfDigits (ds : List Char) : Nat :=
  ds.foldl (fun acc c => acc * 10 + digitVal c) 0

/-- One anchored trial of the compiled pattern
`list_200_(\d+)\.html` (Sniffer.py line 45) at the head of `l`:
the literal `list_200_`, then a maximal nonempty digit run (greedy
`\d+` cannot backtrack into `\.html`, whose first character is not a
digit), then the literal `.html`.  Returns `int(group(1))`. -/
def pageMatchAt (l : List Char) : Option Nat :=
  if "list_200_".data.isPrefixOf l then
    let rest := l.drop ("list_200_".data.length)
    let ds := rest.takeWhile Char.isDigit
    if ds.isEmpty then none
    else if ".html".data.isPrefixOf (rest.dropWhile Char.isDigit) then
      some (natOfDigits ds)
    else none
  else none

/-- `re.search`: try the pattern at each successive start position and
return the first match. -/
def pageSearchFrom : List Char → Option Nat
  | [] => none
  | c :: rest =>
      match pageMatchAt (c :: rest) with
      | some n => some n
      | none => pageSearchFrom rest

/-- `self._page_regex.search(href)`, yielding `int(match.group(1))`. -/
def pageRegexSearch (href : String) : Option Nat :=
  pageSearchFrom href.data

/-- An `<a>` tag of the pager as BeautifulSoup exposes it: its `href`
attribute may be absent. -/
structure ATag where
  href : Option String
  deriving Repr, DecidableEq

/-- The parsed shape of the page-1 document that
`_detect_total_pages` inspects: parsing may raise, and
`soup.find("div", class_="pages")` may find no pager (`none`) or the
pager with its anchor tags. -/
inductive SoupParse where
  | exn
  | ok (pager : Option (List ATag))

/-- The hard-coded fallback page count returned on every discovery
failure (Sniffer.py lines 66, 79, 81, 84). -/
def fallbackPages : Nat := 383

/-- The `href=self._page_regex` filter of `find_all`: the anchor has an
`href` attribute and the compiled pattern matches it. -/
def pagerLinkMatch (a : ATag) : Bool :=
  match a.href with
  | some h => (pageRegexSearch h).isSome
  | none => false

/-- Embedding of `FontSniffer._detect_total_pages` (Sniffer.py lines
56–84).  `fetchResult` is what `self._fetch_page(1)` returned; `parse`
is the BeautifulSoup oracle mapping the HTML to its parsed shape.
`if not html` is Python truthiness: `None` and the empty string both
take the fallback branch.  `find_all("a", href=self._page_regex)` keeps
the anchors whose `href` attribute exists and matches the pattern
(`pagerLinkMatch`); the comprehension then re-extracts
`int(match.group(1))` from each. -/
def detect_total_pages (fetchResult : Option String)
    (parse : String → SoupParse) : Nat :=
  match fetchResult with
  | none => fallbackPages
  | some html =>
    if html = "" then fallbackPages
    else
      match parse html with
      | .exn => fallbackPages
      | .ok none => fallbackPages
      | .ok (some atags) =>
        let page_links := atags.filter pagerLinkMatch
        if page_links.isEmpty then fallbackPages
        else
          let page_numbers := page_links.filterMap
            (fun a => pageRegexSearch (a.href.getD ""))
          if page_numbers.isEmpty then fallbackPages
          else page_numbers.foldl max 0

/-- The page numbers extracted from the pager's matching links. -/
def pagerNumbers (atags : List ATag) : List Nat :=
  (atags.filter pagerLinkMatch).filterMap
    (fun a => pageRegexSearch (a.href.getD ""))

/-- A link kept by the filter extracts a page number. -/
theorem pagerLink_getD (a : ATag) (h : pagerLinkMatch a = true) :
    (pageRegexSearch (a.href.getD "")).isSome = true := by
  cases ha : a.href with
  | none => rw [pagerLinkMatch, ha] at h; cases h
  | some s =>
      rw [pagerLinkMatch, ha] at h
      simpa [ha] using h

theorem le_foldl_max (l : List Nat) : ∀ a, a ≤ l.foldl max a := by
  induction l with
  | nil => intro a; simp
  | cons b t ih =>
    intro a
    exact Nat.le_trans (Nat.le_max_left a b) (ih (max a b))

theorem foldl_max_mem (l : List Nat) : ∀ a, l.foldl max a ∈ a :: l := by
  induction l with
  | nil => intro a; simp
  | cons b t ih =>
    intro a
    rcases List.mem_cons.mp (ih (max a b)) with h | h
    · rcases max_choice a b with hm | hm <;>
        (rw [hm] at h; simp [List.foldl_cons, hm, h])
    · simp only [List.foldl_cons]
      exact List.mem_cons_of_mem a (List.mem_cons_of_mem b h)

theorem foldl_max_le (l : List Nat) : ∀ a m, m ∈ l → m ≤ l.foldl max a := by
  induction l with
  | nil => intro a m hm; cases hm
  | cons b t ih =>
    intro a m hm
    rcases List.mem_cons.mp hm with h | h
    · subst h
      exact Nat.le_trans (Nat.le_max_right a m) (le_foldl_max t (max a m))
    · exact ih (max a b) m h

/-- C4: `_detect_total_pages` returns the fallback 383 when the page-1
fetch fails (or the body is empty), when parsing raises, when the pager
markup is absent, and when no page-number link is found; otherwise it
returns the maximum page index among the pager's page-number links.
Being a total function of its oracles, no discovery failure propagates. -/
theorem detect_total_pages_cases (parse : String → SoupParse)
    (html : String) (atags : List ATag) :
    detect_total_pages none parse = fallbackPages ∧
    (html ≠ "" → parse html = SoupParse.exn →
      detect_total_pages (some html) parse = fallbackPages) ∧
    (html ≠ "" → parse html = SoupParse.ok none →
      detect_total_pages (some html) parse = fallbackPages) ∧
    (html ≠ "" → parse html = SoupParse.ok (some atags) →
      pagerNumbers atags = [] →
      detect_total_pages (some html) parse = fallbackPages) ∧
    (html ≠ "" → parse html = SoupParse.ok (some atags) →
      pagerNumbers atags ≠ [] →
      detect_total_pages (some html) parse ∈ pagerNumbers atags ∧
      ∀ m ∈ pagerNumbers atags, m ≤ detect_total_pages (some html) parse) := by
  refine ⟨rfl, ?_, ?_, ?_, ?_⟩
  · intro hh hp
    simp [detect_total_pages, if_neg hh, hp]
  · intro hh hp
    simp [detect_total_pages, if_neg hh, hp]
  · intro hh hp hnil
    have hforall : ∀ a ∈ atags.filter pagerLinkMatch,
        pageRegexSearch (a.href.getD "") = none :=
      List.filterMap_eq_nil_iff.mp hnil
    have hfl : atags.filter pagerLinkMatch = [] := by
      cases hfl : atags.filter pagerLinkMatch with
      | nil => rfl
      | cons a t =>
        exfalso
        have hmem : a ∈ atags.filter pagerLinkMatch := by
          rw [hfl]; exact List.mem_cons_self a t
        have hsome := pagerLink_getD a (List.mem_filter.mp hmem).2
        rw [hforall a hmem] at hsome
        cases hsome
    simp [detect_total_pages, if_neg hh, hp, hfl]
  · intro hh hp hne
    have hflne : ¬ (atags.filter pagerLinkMatch).isEmpty = true := by
      intro hempty
      apply hne
      have h0 : atags.filter pagerLinkMatch = [] := by
        simpa using hempty
      show (atags.filter pagerLinkMatch).filterMap
        (fun a => pageRegexSearch (a.href.getD "")) = []
      rw [h0]
      rfl
    have hnumsne : ¬ (pagerNumbers atags).isEmpty = true := by
      intro hempty
      exact hne (by simpa using hempty)
    have hdet : detect_total_pages (some html) parse =
        (pagerNumbers atags).foldl max 0 := by
      simp only [detect_total_pages]
      rw [if_neg hh, hp]
      simp only [if_neg hflne]
      show (if (pagerNumbers atags).isEmpty = true then fallbackPages
        else List.foldl max 0 (pagerNumbers atags)) =
          List.foldl max 0 (pagerNumbers atags)
      rw [if_neg hnumsne]
    rw [hdet]
    constructor
    · rcases List.mem_cons.mp (foldl_max_mem (pagerNumbers atags) 0)
        with h0 | hmem
      · cases hnums : pagerNumbers atags with
        | nil => exact absurd hnums hne
        | cons m t =>
          rw [hnums] at h0
          have hle := foldl_max_le (m :: t) 0 m (List.mem_cons_self m t)
          rw [h0] at hle
          have hm0 : m = 0 := Nat.le_zero.mp hle
          rw [h0, hm0]
          exact List.mem_cons_self 0 t
      · exact hmem
    · intro m hm
      exact foldl_max_le _ 0 m hm

/-- Witness for C4: each fallback case and the maximum case at concrete
inputs.  The third anchor lacks an `href` and the last one's `href`
does not match the pattern; among the matching links the maximum index
12 wins. -/
theorem detect_total_pages_cases_witness :
    detect_total_pages none (fun _ => SoupParse.exn) = fallbackPages ∧
    detect_total_pages (some "x") (fun _ => SoupParse.exn) = fallbackPages ∧
    detect_total_pages (some "x") (fun _ => SoupParse.ok none) =
      fallbackPages ∧
    detect_total_pages (some "x") (fun _ => SoupParse.ok (some [ATag.mk none])) =
      fallbackPages ∧
    detect_total_pages (some "x")
      (fun _ => SoupParse.ok (some
        [ATag.mk (some "/font/list_200_7.html"),
         ATag.mk (some "/font/list_200_12.html"),
         ATag.mk none,
         ATag.mk (some "/font/index.html")])) = 12 := by
  refine ⟨(detect_total_pages_cases (fun _ => SoupParse.exn) "x" []).1,
    (detect_total_pages_cases (fun _ => SoupParse.exn) "x" []).2.1
      (by decide) rfl,
    (detect_total_pages_cases (fun _ => SoupParse.ok none) "x" []).2.2.1
      (by decide) rfl,
    (detect_total_pages_cases (fun _ => SoupParse.ok (some [ATag.mk none]))
        "x" [ATag.mk none]).2.2.2.1 (by decide) rfl (by decide),
    ?_⟩
  have h := (detect_total_pages_cases
    (fun _ => SoupParse.ok (some
      [ATag.mk (some "/font/list_200_7.html"),
       ATag.mk (some "/font/list_200_12.html"),
       ATag.mk none,
       ATag.mk (some "/font/index.html")])) "x"
    [ATag.mk (some "/font/list_200_7.html"),
     ATag.mk (some "/font/list_200_12.html"),
     ATag.mk none,
     ATag.mk (some "/font/index.html")]).2.2.2.2 (by decide) rfl (by decide)
  rcases h with ⟨hmem, hmax⟩
  have h12 : (12 : Nat) ∈ pagerNumbers
      [ATag.mk (some "/font/list_200_7.html"),
       ATag.mk (some "/font/list_200_12.html"),
       ATag.mk none,
       ATag.mk (some "/font/index.html")] := by decide
  have hle := hmax 12 h12
  have hub : ∀ m ∈ pagerNumbers
      [ATag.mk (some "/font/list_200_7.html"),
       ATag.mk (some "/font/list_200_12.html"),
       ATag.mk none,
       ATag.mk (some "/font/index.html")], m ≤ 12 := by decide
  have := hub _ hmem
  omega

/-- The anchor `li.find("a", class_="mg-r10", href=...)` yields inside a
list item: its stripped text and its `href` (present by the `find`
predicate, which requires `x and self._font_regex.match(x)`). -/
structure Anchor where
  text : String
  href : String
  deriving Repr, DecidableEq

/-- One `<li>` of the item list, as exposed by the anchor lookup:
`find` returns the matching anchor or nothing. -/
structure LiItem where
  anchor : Option Anchor
  deriving Repr, DecidableEq

/-- The parsed shape of a results page that `_parse_and_filter_page`
walks: the fixed `<section>` may be absent, the fixed `<ul>` inside it
may be absent, or the item list is present. -/
inductive ParsedPage where
  | noSection
  | noUl
  | items (lis : List LiItem)

/-- Python `str.lower()`. -/
def lowerStr (s : String) : String := String.mk (s.data.map Char.toLower)

/-- Python substring containment `needle in hay`: `needle` is a prefix
of some suffix of `hay`. -/
def isInfixB (needle : List Char) : List Char → Bool
  | [] => needle.isEmpty
  | c :: t => needle.isPrefixOf (c :: t) || isInfixB needle t

/-- The per-item extraction and keyword filter loop of
`_parse_and_filter_page` (Sniffer.py lines 151–166).  `resolve` stands
for `urljoin("http://www.downcc.com", ·)`, which the claims leave
abstract.  An item without a matching anchor is skipped; a nonempty
lowercased keyword must occur in the lowercased name. -/
def filterItems (resolve : String → String) (keyword : String)
    (lis : List LiItem) : List (String × String) :=
  let keyword_lower := lowerStr keyword
  lis.filterMap (fun li =>
    match li.anchor with
    | none => none
    | some a =>
        if keyword_lower ≠ "" ∧
            isInfixB keyword_lower.data (lowerStr a.text).data = false then
          none
        else
          some (a.text, resolve a.href))

/-- Embedding of `FontSniffer._parse_and_filter_page` (Sniffer.py lines
127–168) after the fetch: input `none` models `_fetch_page` returning
`None` (or an empty body, by Python truthiness of `if not html`).  A
missing section or missing item list produces the empty result list;
otherwise the item loop runs.  The function is total: no input raises. -/
def parse_and_filter_page (resolve : String → String) (keyword : String)
    (page : Option ParsedPage) : List (String × String) :=
  match page with
  | none => []
  | some .noSection => []
  | some .noUl => []
  | some (.items lis) => filterItems resolve keyword lis

/-- C5: every record included by the page filter has the lowercased
keyword as a substring of its lowercased name (unless the keyword is
empty), and with an empty keyword every record extracted from the item
list is included unconditionally. -/
theorem keyword_filter_sound (resolve : String → String) (keyword : String)
    (page : Option ParsedPage) :
    (∀ name url, (name, url) ∈ parse_and_filter_page resolve keyword page →
      keyword = "" ∨
      isInfixB (lowerStr keyword).data (lowerStr name).data = true) ∧
    (keyword = "" → ∀ lis,
      parse_and_filter_page resolve keyword (some (ParsedPage.items lis)) =
        lis.filterMap (fun li =>
          li.anchor.map (fun a => (a.text, resolve a.href)))) := by
  constructor
  · intro name url hmem
    cases page with
    | none => cases hmem
    | some p =>
      cases p with
      | noSection => cases hmem
      | noUl => cases hmem
      | items lis =>
        simp only [parse_and_filter_page, filterItems] at hmem
        obtain ⟨li, _, hli⟩ := List.mem_filterMap.mp hmem
        cases ha : li.anchor with
        | none => rw [ha] at hli; cases hli
        | some a =>
          rw [ha] at hli
          have hli2 : (if lowerStr keyword ≠ "" ∧
              isInfixB (lowerStr keyword).data (lowerStr a.text).data = false
              then none
              else some (a.text, resolve a.href)) = some (name, url) := hli
          by_cases hcond : lowerStr keyword ≠ "" ∧
              isInfixB (lowerStr keyword).data (lowerStr a.text).data = false
          · rw [if_pos hcond] at hli2; cases hli2
          · rw [if_neg hcond] at hli2
            have hname : a.text = name := congrArg Prod.fst (Option.some.inj hli2)
            rcases Decidable.not_and_iff_or_not.mp hcond with hk | hinf
            · left
              have : (lowerStr keyword) = "" := Decidable.not_not.mp hk
              have hdata : keyword.data.map Char.toLower = [] :=
                congrArg String.data this
              rcases List.map_eq_nil_iff.mp hdata with hnil
              cases hkw : keyword with
              | mk l => rw [hkw] at hnil; simp at hnil; rw [hnil]
            · right
              rw [← hname]
              rcases Bool.eq_false_or_eq_true
                (isInfixB (lowerStr keyword).data (lowerStr a.text).data)
                with ht | hf
              · exact ht
              · exact absurd hf hinf
  · intro hk lis
    subst hk
    simp only [parse_and_filter_page, filterItems, lowerStr]
    have : lowerStr "" = "" := rfl
    congr 1
    funext li
    cases ha : li.anchor with
    | none => simp [ha]
    | some a => simp [ha]

/-- Witness for C5: a keyword matched case-insensitively, and an empty
keyword including the extracted record unconditionally. -/
theorem keyword_filter_sound_witness :
    ("Ab" = "" ∨
      isInfixB (lowerStr "Ab").data (lowerStr "xaBy").data = true) ∧
    parse_and_filter_page id ""
      (some (ParsedPage.items [LiItem.mk (some (Anchor.mk "n" "u"))])) =
      [("n", "u")] := by
  constructor
  · exact (keyword_filter_sound id "Ab"
      (some (ParsedPage.items
        [LiItem.mk (some (Anchor.mk "xaBy" "u"))]))).1 "xaBy" (id "u")
      (by decide)
  · have h := (keyword_filter_sound id ""
      (some (ParsedPage.items [LiItem.mk (some (Anchor.mk "n" "u"))]))).2
      rfl [LiItem.mk (some (Anchor.mk "n" "u"))]
    rw [h]
    rfl

/-- C7: a missing fetch result, missing section or missing item list
produces zero records, and an item whose anchor lookup misses
contributes no record while the rest of the page is still processed;
the embedded parse is a total function, so no input aborts the page. -/
theorem parse_miss_degrades (resolve : String → String) (keyword : String) :
    parse_and_filter_page resolve keyword none = [] ∧
    parse_and_filter_page resolve keyword (some ParsedPage.noSection) = [] ∧
    parse_and_filter_page resolve keyword (some ParsedPage.noUl) = [] ∧
    ∀ lis li, li.anchor = none →
      filterItems resolve keyword (li :: lis) =
        filterItems resolve keyword lis := by
  refine ⟨rfl, rfl, rfl, ?_⟩
  intro lis li ha
  simp only [filterItems, List.filterMap_cons, ha]

/-- Witness for C7: an item without an anchor contributes nothing. -/
theorem parse_miss_degrades_witness :
    parse_and_filter_page id "k" none = [] ∧
    filterItems id "k" [LiItem.mk none] = filterItems id "k" [] :=
  ⟨(parse_miss_degrades id "k").1,
   (parse_miss_degrades id "k").2.2.2 [] (LiItem.mk none) rfl⟩

/-- The `"type"` tags of the event dicts flowing through the repository:
`search` yields `status` and `result` dicts (Sniffer.py lines 183–245);
the front-end thread additionally synthesises `error` and `done` dicts
on its queue (gui_model.py lines 509–511), so the full event alphabet
of the repository has these four variants. -/
inductive Event where
  | status (content : String)
  | result (content : String)
  | error (content : String)
  | done
  deriving Repr, DecidableEq

/-- Is this event the `Done` variant? -/
def isDoneEvent : Event → Bool
  | .done => true
  | _ => false

def detectingMsg : String := "正在检测总页数..."

def detectedMsg (total : Nat) : String :=
  "✅ 检测到总页数: " ++ toString total

def launchMsg (workers : Nat) (keyword : String) : String :=
  "启动 " ++ toString workers ++ " 个并发线程 | 关键词: " ++ keyword

def progressMsg (page completed total found : Nat) : String :=
  "第" ++ toString page ++ "页完成 | 已处理 " ++ toString completed ++ "/" ++
    toString total ++ " 页 | 找到 " ++ toString found ++ " 个字体"

def resultMsg (r : String × String) : String :=
  "\"" ++ r.1 ++ "\" 符合条件\n下载页面：" ++ r.2

def exceptionMsg (page : Nat) (e : String) : String :=
  "第" ++ toString page ++ "页处理异常: " ++ e

def summaryMsg (found : Nat) (st : Stats) : String :=
  "\n" ++ String.mk (List.replicate 60 '=') ++ "\n✅ 搜索完成！共找到 " ++
    toString found ++ " 个字体\n📊 请求统计: 总=" ++
    toString st.total_requests ++ " | 成功=" ++
    toString st.successful_requests ++ " | 失败=" ++
    toString st.failed_requests ++ " | 重试=" ++
    toString st.retried_requests

/-- What one page task delivers to the drain loop: `future.result()`
either returns the matched records or raises. -/
inductive TaskOutcome where
  | ok (records : List (String × String))
  | exn (msg : String)

/-- The page indices submitted to the pool (Sniffer.py lines 196–199):
`range(1, total_pages + 1)` as dict keys, one task per index. -/
def dispatchedPages (total : Nat) : List Nat := List.range' 1 total

/-- The drain loop of `search` (Sniffer.py lines 202–231), specialised
to the never-cancelling default `should_stop`.  `order` is the
completion order of the submitted tasks; `completed` and `found` carry
`completed_pages` and `total_found`.  Returns the emitted events and
the final `total_found`.  A normally completed page emits one progress
`status` (showing the pre-update `total_found`) then one `result` per
record; a raising task emits one exception `status` and leaves both
counters unchanged. -/
def drainLoop (total : Nat) (results : Nat → TaskOutcome) :
    List Nat → Nat → Nat → List Event × Nat
  | [], _, found => ([], found)
  | page :: rest, completed, found =>
    match results page with
    | .exn msg =>
        let r := drainLoop total results rest completed found
        (Event.status (exceptionMsg page msg) :: r.1, r.2)
    | .ok matched =>
        let r := drainLoop total results rest (completed + 1)
          (found + matched.length)
        (Event.status (progressMsg page (completed + 1) total found) ::
          ((matched.map (fun rec => Event.result (resultMsg rec))) ++ r.1),
         r.2)

/-- The full event stream of one uncancelled `search(keyword)` call
(Sniffer.py lines 170–245): three opening `status` events, the drain
loop's events in completion order, and the final summary `status`
built from `total_found` and the `self.stats` snapshot `finalStats`.
The generator then simply terminates. -/
def searchEvents (keyword : String) (workers total : Nat)
    (order : List Nat) (results : Nat → TaskOutcome)
    (finalStats : Stats) : List Event :=
  (Event.status detectingMsg :: Event.status (detectedMsg total) ::
    Event.status (launchMsg workers keyword) ::
    (drainLoop total results order 0 0).1) ++
  [Event.status (summaryMsg (drainLoop total results order 0 0).2 finalStats)]

/-- The drain loop never emits a `done` event. -/
theorem drainLoop_no_done (total : Nat) (results : Nat → TaskOutcome) :
    ∀ order completed found e,
      e ∈ (drainLoop total results order completed found).1 →
      isDoneEvent e = false := by
  intro order
  induction order with
  | nil => intro completed found e he; cases he
  | cons page rest ih =>
    intro completed found e he
    rw [drainLoop] at he
    cases hr : results page with
    | exn msg =>
      rw [hr] at he
      rcases List.mem_cons.mp he with rfl | he
      · rfl
      · exact ih completed found e he
    | ok matched =>
      rw [hr] at he
      rcases List.mem_cons.mp he with rfl | he
      · rfl
      · rcases List.mem_append.mp he with he | he
        · obtain ⟨rec, _, rfl⟩ := List.mem_map.mp he
          rfl
        · exact ih (completed + 1) (found + matched.length) e he

/-- No event of an uncancelled `search` stream is a `done` event. -/
theorem searchEvents_no_done (keyword : String) (workers total : Nat)
    (order : List Nat) (results : Nat → TaskOutcome) (st : Stats) :
    (searchEvents keyword workers total order results st).countP
      (fun e => isDoneEvent e) = 0 := by
  rw [List.countP_eq_zero]
  intro e he
  rw [searchEvents] at he
  rcases List.mem_append.mp he with he | he
  · rcases List.mem_cons.mp he with rfl | he
    · simp [isDoneEvent]
    · rcases List.mem_cons.mp he with rfl | he
      · simp [isDoneEvent]
      · rcases List.mem_cons.mp he with rfl | he
        · simp [isDoneEvent]
        · simp [drainLoop_no_done total results order 0 0 e he]
  · rcases List.mem_singleton.mp he with rfl
    simp [isDoneEvent]

/-- Counterexample to C1: an uncancelled `search` run over one page
emits no `done`-typed event at all — its final event is the summary
`status` event; the generator then terminates without any `Done`. -/
theorem search_done_counterexample :
    (searchEvents "kw" 8 1 [1] (fun _ => TaskOutcome.ok [])
        initStats).countP (fun e => isDoneEvent e) = 0 ∧
    (searchEvents "kw" 8 1 [1] (fun _ => TaskOutcome.ok [])
        initStats).getLast? =
      some (Event.status (summaryMsg 0 initStats)) := by
  exact ⟨searchEvents_no_done "kw" 8 1 [1] (fun _ => TaskOutcome.ok [])
    initStats, rfl⟩

/-- C1 amended: for any concurrency `N ∈ [1, 20]` and total page count
`total ≥ 0`, `search` submits exactly one task per page index in
`[1, total]` (the dict comprehension over `range(1, total + 1)`:
duplicate-free, containing exactly those indices, and each processed
exactly once in any completion order); after all completions are
processed it emits the final summary `status` event as the last event
of the stream — no separate `Done` event exists, the stream simply
ends (the front-end synthesises its own `done` marker on generator
exhaustion). -/
theorem search_dispatch_and_final_status (keyword : String)
    (N total : Nat) (order : List Nat) (results : Nat → TaskOutcome)
    (st : Stats) (_hN1 : 1 ≤ N) (_hN2 : N ≤ 20)
    (hperm : order.Perm (dispatchedPages total)) :
    (dispatchedPages total).Nodup ∧
    (∀ i, i ∈ dispatchedPages total ↔ 1 ≤ i ∧ i ≤ total) ∧
    (∀ i, order.count i = (dispatchedPages total).count i) ∧
    (searchEvents keyword N total order results st).getLast? =
      some (Event.status
        (summaryMsg (drainLoop total results order 0 0).2 st)) ∧
    (searchEvents keyword N total order results st).countP
      (fun e => isDoneEvent e) = 0 := by
  refine ⟨List.nodup_range' _ _, ?_, ?_, ?_, ?_⟩
  · intro i
    rw [dispatchedPages, List.mem_range'_1]
    omega
  · intro i
    exact hperm.count_eq i
  · rw [searchEvents, List.getLast?_concat]
  · exact searchEvents_no_done keyword N total order results st

/-- Witness for the amended C1 at a concrete two-page run drained in
reverse completion order. -/
theorem search_dispatch_and_final_status_witness :
    (dispatchedPages 2).Nodup ∧
    (2 ∈ dispatchedPages 2 ↔ 1 ≤ 2 ∧ 2 ≤ 2) ∧
    ([2, 1].count 1 = (dispatchedPages 2).count 1) ∧
    (searchEvents "kw" 8 2 [2, 1] (fun _ => TaskOutcome.ok [])
        initStats).getLast? =
      some (Event.status
        (summaryMsg (drainLoop 2 (fun _ => TaskOutcome.ok [])
          [2, 1] 0 0).2 initStats)) ∧
    (searchEvents "kw" 8 2 [2, 1] (fun _ => TaskOutcome.ok [])
        initStats).countP (fun e => isDoneEvent e) = 0 := by
  have h := search_dispatch_and_final_status "kw" 8 2 [2, 1]
    (fun _ => TaskOutcome.ok []) initStats (by decide) (by decide)
    (by decide)
  exact ⟨h.1, h.2.1 2, h.2.2.1 1, h.2.2.2.1, h.2.2.2.2⟩

/-- CPython executes each `self.stats[key] += 1` (Sniffer.py lines 101,
108, 111, 114) as separate read and write steps on the shared dict —
the source takes no lock and uses no atomic primitive anywhere (the
only shared-state guard in the repository is the `should_stop`
predicate).  Model: one shared counter and two worker threads, each
performing a single increment as a read step (load the counter into a
private register) followed by a write step (store register + 1). -/
structure IncState where
  counter : Nat
  reg0 : Option Nat
  done0 : Bool
  reg1 : Option Nat
  done1 : Bool
  deriving Repr, DecidableEq

/-- One scheduler step: run the next pending step (read, then write) of
the chosen thread (`false` = worker 0, `true` = worker 1); a finished
thread's step is a no-op. -/
def incStep (tid : Bool) (s : IncState) : IncState :=
  if tid then
    match s.reg1, s.done1 with
    | none, false => { s with reg1 := some s.counter }
    | some v, false => { s with counter := v + 1, done1 := true }
    | _, _ => s
  else
    match s.reg0, s.done0 with
    | none, false => { s with reg0 := some s.counter }
    | some v, false => { s with counter := v + 1, done0 := true }
    | _, _ => s

/-- Run a schedule (an interleaving of the two workers' steps). -/
def runSched (sched : List Bool) (s : IncState) : IncState :=
  sched.foldl (fun st t => incStep t st) s

/-- Counter 0, neither thread started. -/
def initIncState : IncState := ⟨0, none, false, none, false⟩

/-- Counterexample to C8: the increments are NOT serialized by any
mutex or atomic primitive, and under the interleaving read₀, read₁,
write₀, write₁ both workers complete their increment of the same
counter yet the final value is 1, not 2 — a lost update, so final
counts do not equal the sum of increments for every interleaving. -/
theorem stats_increment_lost_update_counterexample :
    (runSched [false, true, false, true] initIncState).done0 = true ∧
    (runSched [false, true, false, true] initIncState).done1 = true ∧
    (runSched [false, true, false, true] initIncState).counter = 1 := by
  decide

/-- C8 amended: `RunStats` mutations are plain unsynchronized
read-modify-write sequences on the shared dict; when the two workers'
increments do not interleave (either serial order) the final counter is
the exact sum 2, but the interleaved schedule loses an update and ends
at 1, so exactness holds only for serialized interleavings. -/
theorem stats_increment_serialization :
    (runSched [false, false, true, true] initIncState).counter = 2 ∧
    (runSched [true, true, false, false] initIncState).counter = 2 ∧
    (runSched [false, true, false, true] initIncState).counter = 1 := by
  decide

/-- A heap of counter dictionaries: `contents` maps an address to the
`Stats` dict stored there, `nextAddr` is the next fresh address.  The
engine holds `self.stats` at a fixed address. -/
structure Heap where
  contents : Nat → Stats
  nextAddr : Nat

/-- The engine's reference to its own `self.stats` dict. -/
structure EngineRef where
  statsAddr : Nat

/-- Embedding of `FontSniffer.get_stats` (Sniffer.py lines 247–249):
`return self.stats.copy()` allocates a fresh dict holding the same
four counters and returns its address; the engine's own dict is not
handed out. -/
def get_stats (e : EngineRef) (h : Heap) : Nat × Heap :=
  (h.nextAddr,
   { contents := fun a =>
       if a = h.nextAddr then h.contents e.statsAddr else h.contents a,
     nextAddr := h.nextAddr + 1 })

/-- A caller mutating the dict at address `a` (e.g. writing into the
returned snapshot). -/
def writeStats (h : Heap) (a : Nat) (v : Stats) : Heap :=
  { h with contents := fun x => if x = a then v else h.contents x }

/-- C9: `get_stats` returns a copy, never a live reference: the
returned snapshot holds the engine's counters; a second call with no
intervening fetch returns an equal snapshot; the returned address is
distinct from the engine's dict; and mutating the snapshot changes
neither the engine's counters nor what a later `get_stats` returns. -/
theorem get_stats_returns_copy (e : EngineRef) (h : Heap) (v : Stats)
    (hvalid : e.statsAddr < h.nextAddr) :
    (get_stats e h).2.contents (get_stats e h).1 =
      h.contents e.statsAddr ∧
    (get_stats e (get_stats e h).2).2.contents
        (get_stats e (get_stats e h).2).1 = h.contents e.statsAddr ∧
    (get_stats e h).1 ≠ e.statsAddr ∧
    (writeStats (get_stats e h).2 (get_stats e h).1 v).contents
        e.statsAddr = h.contents e.statsAddr ∧
    (get_stats e (writeStats (get_stats e h).2 (get_stats e h).1 v)).2.contents
        (get_stats e (writeStats (get_stats e h).2 (get_stats e h).1 v)).1 =
      h.contents e.statsAddr := by
  have hne : e.statsAddr ≠ h.nextAddr := Nat.ne_of_lt hvalid
  refine ⟨?_, ?_, ?_, ?_, ?_⟩
  · simp [get_stats]
  · simp [get_stats, hne]
  · exact fun hc => hne hc.symm
  · simp [get_stats, writeStats, hne]
  · simp [get_stats, writeStats, hne]

/-- Witness for C9 at a one-dict heap holding the zeroed counters. -/
theorem get_stats_returns_copy_witness :
    (get_stats (EngineRef.mk 0) (Heap.mk (fun _ => initStats) 1)).2.contents
        (get_stats (EngineRef.mk 0) (Heap.mk (fun _ => initStats) 1)).1 =
      initStats ∧
    (get_stats (EngineRef.mk 0)
        (writeStats
          (get_stats (EngineRef.mk 0) (Heap.mk (fun _ => initStats) 1)).2
          (get_stats (EngineRef.mk 0) (Heap.mk (fun _ => initStats) 1)).1
          (Stats.mk 5 5 5 5))).2.contents
        (get_stats (EngineRef.mk 0)
          (writeStats
            (get_stats (EngineRef.mk 0) (Heap.mk (fun _ => initStats) 1)).2
            (get_stats (EngineRef.mk 0) (Heap.mk (fun _ => initStats) 1)).1
            (Stats.mk 5 5 5 5))).1 = initStats := by
  have h := get_stats_returns_copy (EngineRef.mk 0)
    (Heap.mk (fun _ => initStats) 1) (Stats.mk 5 5 5 5) (by decide)
  exact ⟨h.1, h.2.2.2.2⟩
